import Mathlib

/-!
Verification of the upload/ingestion client of `scrapers/upload_video.py`
(class `VideoUploader`).

The embedding is a shallow one: each method of `VideoUploader` becomes a Lean
function over an explicit client state (the creator cache), an explicit
filesystem (a `String → Bool` membership map for local paths), and a `World`
of oracles standing for the outside effects (HTTP responses of the platform
API, the bytes on disk, the names handed out by `tempfile`).  Every
observable network interaction is recorded in an event trace so that claims
of the form "no network call is made" can be stated about the trace.

Python `dict`s for creator references are modelled as a structure of
`Option` fields (`none` = key absent).  Python truthiness of strings
(`if not username`) is modelled explicitly: both a missing key and an empty
string count as falsy, exactly as in the source.
-/

set_option autoImplicit false

/-- The local filesystem, as a membership predicate on paths. -/
abbrev FS := String → Bool

/-- Creating a file (`tempfile.NamedTemporaryFile(delete=False)`). -/
def FS.add (fs : FS) (p : String) : FS :=
  fun q => if q = p then true else fs q

/-- Deleting a file (`os.unlink`). -/
def FS.remove (fs : FS) (p : String) : FS :=
  fun q => if q = p then false else fs q

/-- The error taxonomy visible in the source: `ValueError` (validation),
`FileNotFoundError`, and `requests.HTTPError` / transport errors. -/
inductive Err where
  | validation (msg : String)
  | notFound (msg : String)
  | http (msg : String)
  deriving Repr, DecidableEq

/-- Whether an `Except` result is a success (the call returned normally). -/
def exIsOk {α : Type} : Except Err α → Bool
  | .ok _ => true
  | .error _ => false

/-- Whether an `Except` result is a `ValueError` (validation failure). -/
def exIsValidation {α : Type} : Except Err α → Bool
  | .error (.validation _) => true
  | _ => false

/-- One observable network interaction of the client. -/
inductive NetEvent where
  /-- The call `requests.get(url)` in `_download_file`. -/
  | getUrl (url : String)
  /-- The call POST api/v1/creators in `upsert_creator`. -/
  | upsertCreator (username : String)
  /-- The call POST api/v1/upload in `create_video`. -/
  | createVideo
  /-- The PUT of raw bytes to a signed URL in `upload_file_to_s3`. -/
  | putS3 (url : String) (contentType : String)
  deriving Repr, DecidableEq

/-- A creator reference dict as accepted by `ensure_creators`.  `none`
models an absent key.  The extra descriptor keys (`aliases`, `image`,
`birthday`, `links`) are forwarded verbatim into the upsert payload by the
source and never influence control flow, so they are not modelled. -/
structure CreatorDict where
  id? : Option String := none
  username? : Option String := none
  display_name? : Option String := none
  displayName? : Option String := none
  role? : Option String := none
  deriving Repr, DecidableEq

/-- An entry of the normalized creator list (`{"id": ..., "role": ...}`). -/
structure ResolvedCreator where
  id : String
  role : String
  deriving Repr, DecidableEq

/-- The documented fields of the response of `POST /api/v1/upload`. -/
structure UploadResponse where
  videoId : String
  uploadUrl : String
  thumbnailUploadUrl : Option String := none
  deriving Repr, DecidableEq

/-- How a `_download_file` call plays out, as decided by the environment:
the initial `requests.get`/`raise_for_status` can fail (no temporary file
exists yet), the chunked body iteration can fail after the temporary file
was created (`delete=False`, so the file stays behind), or the whole body
arrives. -/
inductive FetchResult where
  | httpError
  | streamError
  | ok
  deriving Repr, DecidableEq

/-- Oracles for everything outside the client: HTTP outcomes, server-chosen
ids, `tempfile` names, `stat().st_size`, and the `urlparse` scheme+netloc
check of `_is_url`. -/
structure World where
  isUrl : String → Bool
  fetch : String → FetchResult
  tempPath : String → String
  size : String → Nat
  creatorId : String → String
  upsertFails : String → Bool
  createVideoFails : Bool
  resp : UploadResponse
  putFails : String → Bool

/-- The mutable state of a `VideoUploader` instance: `_creator_cache`,
a `username → creator_id` mapping. -/
structure ClientState where
  cache : List (String × String)
  deriving Repr, DecidableEq

/-- Python truthiness of an optional string: absent and `""` are falsy. -/
def truthy : Option String → Bool
  | none => false
  | some s => !(s == "")

/-- Python `a or b` on optional strings. -/
def pyOr (a b : Option String) : Option String :=
  if truthy a then a else b

/-- Python `a or b` where `b` is a plain string. -/
def pyOrStr (a : Option String) (b : String) : String :=
  match a with
  | some s => if s = "" then b else s
  | none => b

/-- Model of `VideoUploader.upsert_creator`: consult `_creator_cache` first; on a
miss, `POST /api/v1/creators` (one network event, whether or not the server
answers 2xx), read `result["creator"]["id"]` back and record it in the
cache.  The display name and optional descriptor fields only feed the
payload. -/
def upsert_creator (w : World) (st : ClientState) (username displayName : String) :
    Except Err String × ClientState × List NetEvent :=
  match List.lookup username st.cache with
  | some cid => (.ok cid, st, [])
  | none =>
      if w.upsertFails username then
        (.error (.http "upsert creator failed"), st, [.upsertCreator username])
      else
        let cid := w.creatorId username
        (.ok cid, ⟨(username, cid) :: st.cache⟩, [.upsertCreator username])

/-- One iteration of the loop in `VideoUploader.ensure_creators`:
`role = creator.get("role", "performer")`; a dict with an `id` key and no
`username` key passes through unchanged; otherwise the username is
extracted (`ValueError` when missing or empty, i.e. falsy) and the creator
is upserted, the result id replacing whatever `id` the dict carried. -/
def resolveOne (w : World) (st : ClientState) (c : CreatorDict) :
    Except Err ResolvedCreator × ClientState × List NetEvent :=
  let role := c.role?.getD "performer"
  match c.id?, c.username? with
  | some cid, none => (.ok ⟨cid, role⟩, st, [])
  | _, _ =>
    match c.username? with
    | none => (.error (.validation "Creator must have username or id"), st, [])
    | some u =>
      if u = "" then
        (.error (.validation "Creator must have username or id"), st, [])
      else
        let dn := (pyOr (pyOr c.display_name? c.displayName?) (some u)).getD u
        match upsert_creator w st u dn with
        | (res, st', ev) => (res.map (fun cid => ⟨cid, role⟩), st', ev)

/-- Model of `VideoUploader.ensure_creators`: process the references in order; the
first raising entry aborts the loop, keeping the side effects of the
entries already processed. -/
def ensure_creators (w : World) (st : ClientState) (creators : List CreatorDict) :
    Except Err (List ResolvedCreator) × ClientState × List NetEvent :=
  match creators with
  | [] => (.ok [], st, [])
  | c :: rest =>
    match resolveOne w st c with
    | (.error e, st', ev) => (.error e, st', ev)
    | (.ok rc, st', ev) =>
      match ensure_creators w st' rest with
      | (.ok rcs, st'', ev') => (.ok (rc :: rcs), st'', ev ++ ev')
      | (.error e, st'', ev') => (.error e, st'', ev ++ ev')

/-- The creator-format validation loop of the CLI driver (`main`, before
`upload_video` is invoked): every reference must carry a `role` key, the
role must be `performer` or `producer`, and at least one of `id` and
`username` must be present. -/
def validate_creators (creators : List CreatorDict) : Except Err Unit :=
  match creators with
  | [] => .ok ()
  | c :: rest =>
    match c.role? with
    | none => .error (.validation "Creator must have role field")
    | some r =>
      if r ≠ "performer" ∧ r ≠ "producer" then
        .error (.validation "Invalid role")
      else if c.id? = none ∧ c.username? = none then
        .error (.validation "Creator must have either id or username field")
      else validate_creators rest

/-- The final component of a path: the characters after the last `/`
(models `pathlib.PurePath.name` for ordinary relative/absolute paths). -/
def lastComponentChars (cs : List Char) : List Char :=
  cs.foldl (fun acc c => if c = '/' then [] else acc ++ [c]) []

/-- The index of the last `.` of a name (`str.rfind`). -/
def lastDotIdx (name : List Char) : Option Nat :=
  ((name.enum.filter (fun pr => pr.2 = '.')).map (fun pr => pr.1)).getLast?

/-- Model of `pathlib.PurePath.suffix`: the extension of the final component,
empty when the last dot is leading or trailing (`0 < i < len(name) - 1`). -/
def pySuffix (p : String) : String :=
  let name := lastComponentChars p.toList
  match lastDotIdx name with
  | none => ""
  | some i => if 0 < i ∧ i < name.length - 1 then String.mk (name.drop i) else ""

/-- ASCII lowercasing of one character (the only case `str.lower` can hit
on the dot-led extension strings the resolver compares against its
ASCII-only table). -/
def lowerChar (c : Char) : Char :=
  (List.lookup c
    [('A', 'a'), ('B', 'b'), ('C', 'c'), ('D', 'd'), ('E', 'e'), ('F', 'f'),
     ('G', 'g'), ('H', 'h'), ('I', 'i'), ('J', 'j'), ('K', 'k'), ('L', 'l'),
     ('M', 'm'), ('N', 'n'), ('O', 'o'), ('P', 'p'), ('Q', 'q'), ('R', 'r'),
     ('S', 's'), ('T', 't'), ('U', 'u'), ('V', 'v'), ('W', 'w'), ('X', 'x'),
     ('Y', 'y'), ('Z', 'z')]).getD c

/-- Model of `str.lower` on a suffix string. -/
def strLower (s : String) : String :=
  String.mk (s.toList.map lowerChar)

/-- The fixed extension table of `_get_content_type`. -/
def content_types : List (String × String) :=
  [(".mp4", "video/mp4"),
   (".mov", "video/quicktime"),
   (".avi", "video/x-msvideo"),
   (".webm", "video/webm"),
   (".mkv", "video/x-matroska"),
   (".jpg", "image/jpeg"),
   (".jpeg", "image/jpeg"),
   (".png", "image/png"),
   (".gif", "image/gif"),
   (".webp", "image/webp")]

/-- Model of `VideoUploader._get_content_type`: lower-case the suffix, look it up in
the table, default to `application/octet-stream`. -/
def get_content_type (p : String) : String :=
  let extension := strLower (pySuffix p)
  (List.lookup extension content_types).getD "application/octet-stream"

/-- The orchestrator's input (`VideoUploader.upload_video` keyword
arguments).  Metadata fields that only feed the creation payload are kept
for completeness but do not influence observable control flow. -/
structure UploadRequest where
  videoPath : String
  title : String := ""
  userId : String := ""
  description : Option String := none
  thumbnailPath : Option String := none
  creators : Option (List CreatorDict) := none
  tags : Option (List String) := none
  viewCount : Option Nat := none
  externalReference : Option String := none
  createdAt : Option String := none

/-- Model of `VideoUploader._download_file`: `requests.get` (always a network
event), then `raise_for_status` (on failure no temporary file exists yet);
then `tempfile.NamedTemporaryFile(delete=False, suffix=...)` creates the
file on disk, and the chunked body copy either completes (the path is
returned) or raises with the file left behind.  The suffix passed by the
caller only shapes the name `tempfile` picks, which the `tempPath` oracle
already decides. -/
def download_file (w : World) (fs : FS) (url : String) :
    Except Err String × FS × List NetEvent :=
  match w.fetch url with
  | .httpError => (.error (.http "download failed"), fs, [.getUrl url])
  | .streamError =>
      (.error (.http "download interrupted"), FS.add fs (w.tempPath url), [.getUrl url])
  | .ok => (.ok (w.tempPath url), FS.add fs (w.tempPath url), [.getUrl url])

/-- The local-vs-URL handling `upload_video` performs identically for the
video (step 1) and the thumbnail (step 3): a URL is fetched to a temporary
file (recorded in the second component only when the fetch returned), a
local path is checked for existence (`FileNotFoundError` otherwise). -/
def materializeSource (w : World) (fs : FS) (path : String) :
    Except Err (String × Option String) × FS × List NetEvent :=
  if w.isUrl path then
    match download_file w fs path with
    | (.ok tp, fs', ev) => (.ok (tp, some tp), fs', ev)
    | (.error e, fs', ev) => (.error e, fs', ev)
  else
    if fs path then (.ok (path, none), fs, [])
    else (.error (.notFound "file not found"), fs, [])

/-- The size of the materialized video asset, when materialization
succeeds (the quantity `upload_video` compares against the 1024-byte
minimum). -/
def materializedVideoSize (w : World) (fs : FS) (req : UploadRequest) : Option Nat :=
  match materializeSource w fs req.videoPath with
  | (.ok (p, _), _, _) => some (w.size p)
  | _ => none

/-- What the `try` block of `upload_video` leaves behind for the `finally`
block: the outcome, the two temp-path variables, the client state, the
filesystem and the event trace. -/
structure BodyOut where
  result : Except Err UploadResponse
  tempVideo : Option String
  tempThumb : Option String
  st : ClientState
  fs : FS
  events : List NetEvent

/-- Model of `VideoUploader.create_video`: one POST to api/v1/upload; the payload is
assembled from the request metadata and the resolved creators, and the
response is entirely server-chosen (the `resp` oracle). -/
def create_video (w : World) : Except Err UploadResponse × List NetEvent :=
  if w.createVideoFails then (.error (.http "create video failed"), [.createVideo])
  else (.ok w.resp, [.createVideo])

/-- Model of `VideoUploader.upload_file_to_s3`: one PUT of the file's bytes to the
signed URL with the given `Content-Type` header; `raise_for_status` on a
non-2xx answer. -/
def upload_file_to_s3 (w : World) (uploadUrl filePath contentType : String) :
    Except Err Unit × List NetEvent :=
  if w.putFails uploadUrl then (.error (.http "transfer failed"), [.putS3 uploadUrl contentType])
  else (.ok (), [.putS3 uploadUrl contentType])

/-- Steps 5-7 of `upload_video`: request the upload session, transfer the
video bytes, and, when a thumbnail asset exists and the session carries a
thumbnail slot (both truthy), transfer the thumbnail bytes with
`thumbnail_content_type or "image/jpeg"`. -/
def afterCreators (w : World) (st : ClientState) (fs : FS) (ev : List NetEvent)
    (actualVideo contentType : String) (tempV : Option String)
    (actualThumb? tempT thumbCT? : Option String) : BodyOut :=
  match create_video w with
  | (.error e, evc) => ⟨.error e, tempV, tempT, st, fs, ev ++ evc⟩
  | (.ok resp, evc) =>
    match upload_file_to_s3 w resp.uploadUrl actualVideo contentType with
    | (.error e, evp) => ⟨.error e, tempV, tempT, st, fs, ev ++ evc ++ evp⟩
    | (.ok _, evp) =>
      if truthy actualThumb? ∧ truthy resp.thumbnailUploadUrl then
        match upload_file_to_s3 w (resp.thumbnailUploadUrl.getD "")
            (actualThumb?.getD "") (pyOrStr thumbCT? "image/jpeg") with
        | (.error e, evt) => ⟨.error e, tempV, tempT, st, fs, ev ++ evc ++ evp ++ evt⟩
        | (.ok _, evt) => ⟨.ok resp, tempV, tempT, st, fs, ev ++ evc ++ evp ++ evt⟩
      else ⟨.ok resp, tempV, tempT, st, fs, ev ++ evc ++ evp⟩

/-- Step 4 of `upload_video`: `if creators:` (a missing or empty list is
falsy and skipped) resolve them through `ensure_creators`, aborting on
failure, then continue with steps 5-7. -/
def afterThumb (w : World) (st : ClientState) (fs : FS) (req : UploadRequest)
    (ev : List NetEvent) (actualVideo contentType : String) (tempV : Option String)
    (actualThumb? tempT thumbCT? : Option String) : BodyOut :=
  match req.creators with
  | some cs =>
    if cs.isEmpty then
      afterCreators w st fs ev actualVideo contentType tempV actualThumb? tempT thumbCT?
    else
      match ensure_creators w st cs with
      | (.error e, st1, evc) => ⟨.error e, tempV, tempT, st1, fs, ev ++ evc⟩
      | (.ok _, st1, evc) =>
          afterCreators w st1 fs (ev ++ evc) actualVideo contentType tempV actualThumb? tempT thumbCT?
  | none => afterCreators w st fs ev actualVideo contentType tempV actualThumb? tempT thumbCT?

/-- The `try` block of `VideoUploader.upload_video`: materialize the video
(step 1), compute its content type, enforce the 1024-byte minimum (step 2,
`ValueError` below it), materialize the thumbnail when one was given and
truthy (step 3; an undersized thumbnail only prints a warning), then hand
over to steps 4-7. -/
def upload_body (w : World) (st : ClientState) (fs : FS) (req : UploadRequest) : BodyOut :=
  match materializeSource w fs req.videoPath with
  | (.error e, fs1, ev1) => ⟨.error e, none, none, st, fs1, ev1⟩
  | (.ok (actualVideo, tempV), fs1, ev1) =>
    let contentType := get_content_type actualVideo
    if w.size actualVideo < 1024 then
      ⟨.error (.validation "Video file is too small. Minimum size is 1KB."),
        tempV, none, st, fs1, ev1⟩
    else
      match req.thumbnailPath with
      | some tp =>
        if tp = "" then
          afterThumb w st fs1 req ev1 actualVideo contentType tempV none none none
        else
          match materializeSource w fs1 tp with
          | (.error e, fs2, ev2) => ⟨.error e, tempV, none, st, fs2, ev1 ++ ev2⟩
          | (.ok (actualThumb, tempT), fs2, ev2) =>
              afterThumb w st fs2 req (ev1 ++ ev2) actualVideo contentType tempV
                (some actualThumb) tempT (some (get_content_type actualThumb))
      | none => afterThumb w st fs1 req ev1 actualVideo contentType tempV none none none

/-- One branch of the `finally` block:
`if temp_path and os.path.exists(temp_path): os.unlink(temp_path)`. -/
def cleanupTemp (fs : FS) (p? : Option String) : FS :=
  match p? with
  | none => fs
  | some p => if p = "" then fs else if fs p then FS.remove fs p else fs

/-- The observable outcome of one `upload_video` call. -/
structure RunOut where
  result : Except Err UploadResponse
  tempVideo : Option String
  tempThumb : Option String
  st : ClientState
  fs : FS
  events : List NetEvent

/-- Model of `VideoUploader.upload_video`: run the `try` block, then the `finally`
block (unlink each recorded temporary file that still exists), preserving
the body's outcome. -/
def upload_video (w : World) (st : ClientState) (fs : FS) (req : UploadRequest) : RunOut :=
  let b := upload_body w st fs req
  let fs1 := cleanupTemp b.fs b.tempVideo
  let fs2 := cleanupTemp fs1 b.tempThumb
  ⟨b.result, b.tempVideo, b.tempThumb, b.st, fs2, b.events⟩

/-! ## Basic lemmas about the model -/

@[simp] theorem upload_video_result (w : World) (st : ClientState) (fs : FS) (req : UploadRequest) :
    (upload_video w st fs req).result = (upload_body w st fs req).result := rfl

@[simp] theorem upload_video_events (w : World) (st : ClientState) (fs : FS) (req : UploadRequest) :
    (upload_video w st fs req).events = (upload_body w st fs req).events := rfl

@[simp] theorem upload_video_tempVideo (w : World) (st : ClientState) (fs : FS) (req : UploadRequest) :
    (upload_video w st fs req).tempVideo = (upload_body w st fs req).tempVideo := rfl

@[simp] theorem upload_video_tempThumb (w : World) (st : ClientState) (fs : FS) (req : UploadRequest) :
    (upload_video w st fs req).tempThumb = (upload_body w st fs req).tempThumb := rfl

@[simp] theorem upload_video_fs (w : World) (st : ClientState) (fs : FS) (req : UploadRequest) :
    (upload_video w st fs req).fs =
      cleanupTemp (cleanupTemp (upload_body w st fs req).fs (upload_body w st fs req).tempVideo)
        (upload_body w st fs req).tempThumb := rfl

theorem cleanupTemp_absent (fs : FS) (p : String) (hne : p ≠ "") :
    cleanupTemp fs (some p) p = false := by
  simp only [cleanupTemp]
  rw [if_neg hne]
  by_cases h : fs p = true
  · rw [if_pos h]
    simp [FS.remove]
  · rw [if_neg h]
    simpa using h

theorem cleanupTemp_preserves_false (fs : FS) (o : Option String) (q : String)
    (h : fs q = false) : cleanupTemp fs o q = false := by
  cases o with
  | none => simpa [cleanupTemp]
  | some p =>
    simp only [cleanupTemp]
    split
    · exact h
    · split
      · simp only [FS.remove]
        split
        · rfl
        · exact h
      · exact h

theorem upsert_creator_events (w : World) (st : ClientState) (u d : String) :
    ∀ e ∈ (upsert_creator w st u d).2.2, e = NetEvent.upsertCreator u := by
  unfold upsert_creator
  split
  · simp
  · split <;> simp

theorem resolveOne_events (w : World) (st : ClientState) (c : CreatorDict) :
    ∀ e ∈ (resolveOne w st c).2.2, ∃ u, c.username? = some u ∧ e = NetEvent.upsertCreator u := by
  unfold resolveOne
  rcases hid : c.id? with _ | cid <;> rcases hu : c.username? with _ | u <;>
      simp only [hid, hu]
  case none.none => simp
  case some.none => simp
  all_goals
    intro e he
    by_cases hne : u = ""
    · rw [if_pos hne] at he
      simp at he
    · rw [if_neg hne] at he
      rcases hup : upsert_creator w st u
          ((pyOr (pyOr c.display_name? c.displayName?) (some u)).getD u) with ⟨r, st', ev⟩
      rw [hup] at he
      dsimp only at he
      refine ⟨u, rfl, ?_⟩
      have h2 := upsert_creator_events w st u
        ((pyOr (pyOr c.display_name? c.displayName?) (some u)).getD u) e
      rw [hup] at h2
      exact h2 he

theorem ensure_creators_events (w : World) :
    ∀ (cs : List CreatorDict) (st : ClientState),
      ∀ e ∈ (ensure_creators w st cs).2.2,
        ∃ c ∈ cs, ∃ u, c.username? = some u ∧ e = NetEvent.upsertCreator u := by
  intro cs
  induction cs with
  | nil => intro st e he; simp [ensure_creators] at he
  | cons c rest ih =>
    intro st e he
    rw [ensure_creators] at he
    rcases hr : resolveOne w st c with ⟨r, st', ev⟩
    rw [hr] at he
    cases r with
    | error e' =>
      simp only at he
      have := resolveOne_events w st c e
      rw [hr] at this
      rcases this he with ⟨u, hu, hev⟩
      exact ⟨c, List.mem_cons_self c rest, u, hu, hev⟩
    | ok rc =>
      dsimp only at he
      rcases hrest : ensure_creators w st' rest with ⟨r2, st'', ev'⟩
      rw [hrest] at he
      have hsplit : e ∈ ev ++ ev' := by
        cases r2 <;> simpa using he
      rcases List.mem_append.mp hsplit with h1 | h2
      · have := resolveOne_events w st c e
        rw [hr] at this
        rcases this h1 with ⟨u, hu, hev⟩
        exact ⟨c, List.mem_cons_self c rest, u, hu, hev⟩
      · have := ih st' e
        rw [hrest] at this
        rcases this h2 with ⟨c', hc', u, hu, hev⟩
        exact ⟨c', List.mem_cons_of_mem c hc', u, hu, hev⟩

theorem download_file_events (w : World) (fs : FS) (url : String) :
    ∀ e ∈ (download_file w fs url).2.2, e = NetEvent.getUrl url := by
  unfold download_file
  split <;> simp

theorem materializeSource_events (w : World) (fs : FS) (p : String) :
    ∀ e ∈ (materializeSource w fs p).2.2, e = NetEvent.getUrl p := by
  unfold materializeSource
  split
  · rcases h : download_file w fs p with ⟨r, fs', ev⟩
    have := download_file_events w fs p
    rw [h] at this
    cases r <;> simpa using this
  · split <;> simp

/-! ## Concrete environments used by counterexamples and witnesses -/

/-- An empty creator cache (a fresh `VideoUploader`). -/
def stEmpty : ClientState := ⟨[]⟩

/-- An empty filesystem. -/
def fsEmpty : FS := fun _ => false

/-- A benign environment: one URL, downloads succeed, the platform accepts
everything. -/
def wBase : World :=
  { isUrl := fun s => s = "http://h/v.mp4"
  , fetch := fun _ => .ok
  , tempPath := fun _ => "/tmp/vid0001.mp4"
  , size := fun _ => 4096
  , creatorId := fun _ => "cid1"
  , upsertFails := fun _ => false
  , createVideoFails := false
  , resp := ⟨"vid1", "putV", some "putT"⟩
  , putFails := fun _ => false }

/-- A request whose video source is the URL of `wBase`. -/
def reqUrl : UploadRequest := { videoPath := "http://h/v.mp4" }

/-- Like `wBase`, except the download of the video body breaks off after the
temporary file was created. -/
def wLeak : World := { wBase with fetch := fun _ => .streamError }

/-- A new-creator reference for `alice`. -/
def aliceNew : CreatorDict :=
  { username? := some "alice", display_name? := some "Alice", role? := some "performer" }

/-- A reference carrying only a role: neither `id` nor `username`. -/
def badRef : CreatorDict := { role? := some "performer" }

/-! ## C1 -/

/-- Claim C1, counterexample: with the video source a URL whose download
fails mid-stream (after `tempfile.NamedTemporaryFile(delete=False)` created
the file), `upload_video` raises but the temporary file is still present
afterwards — `temp_video_path` was never assigned, so the `finally` block
does not remove it.  The claim "every temporary file created during the run
is absent after the call returns, on every exit path" is therefore false on
the fetch-failure path. -/
theorem c1_counterexample :
    fsEmpty "/tmp/vid0001.mp4" = false ∧
    exIsOk (upload_video wLeak stEmpty fsEmpty reqUrl).result = false ∧
    (upload_video wLeak stEmpty fsEmpty reqUrl).fs "/tmp/vid0001.mp4" = true := by
  refine ⟨rfl, rfl, ?_⟩
  decide

/-- Claim C1, amended: every temporary file whose download completed — that
is, whose path `_download_file` returned and `upload_video` recorded in
`temp_video_path` / `temp_thumbnail_path` — is absent from the filesystem
after the call returns, on every exit path.  (A download that fails after
creating its temporary file leaks that file, as `c1_counterexample`
shows; non-empty temp names are what `tempfile` produces.) -/
theorem c1_temp_cleanup (w : World) (st : ClientState) (fs : FS) (req : UploadRequest)
    (p : String) (hne : p ≠ "")
    (hp : (upload_video w st fs req).tempVideo = some p ∨
          (upload_video w st fs req).tempThumb = some p) :
    (upload_video w st fs req).fs p = false := by
  rw [upload_video_fs]
  rcases hp with hv | ht
  · rw [upload_video_tempVideo] at hv
    rw [hv]
    exact cleanupTemp_preserves_false _ _ _ (cleanupTemp_absent _ _ hne)
  · rw [upload_video_tempThumb] at ht
    rw [ht]
    exact cleanupTemp_absent _ _ hne

/-- Witness for `c1_temp_cleanup`: a successful URL upload records the
fetched video in `temp_video_path`, and the file is gone afterwards. -/
theorem c1_temp_cleanup_witness :
    (upload_video wBase stEmpty fsEmpty reqUrl).fs "/tmp/vid0001.mp4" = false :=
  c1_temp_cleanup wBase stEmpty fsEmpty reqUrl "/tmp/vid0001.mp4"
    (by decide) (Or.inl (by decide))

/-! ## C2 -/

/-- Claim C2: two resolutions of the same username through one client's
`upsert_creator` — both returning an id — make at most one upsert HTTP
call in total and hand back the identical creator id: a cache miss posts
once and records the id, after which the second resolution is served from
`_creator_cache` without touching the network. -/
theorem c2_upsert_cache (w : World) (st : ClientState) (u d1 d2 i1 i2 : String)
    (st1 st2 : ClientState) (ev1 ev2 : List NetEvent)
    (h1 : upsert_creator w st u d1 = (.ok i1, st1, ev1))
    (h2 : upsert_creator w st1 u d2 = (.ok i2, st2, ev2)) :
    i1 = i2 ∧ ev1.length + ev2.length ≤ 1 := by
  unfold upsert_creator at h1 h2
  rcases hl : List.lookup u st.cache with _ | cid
  · rw [hl] at h1
    rcases hf : w.upsertFails u with _ | _
    · rw [hf] at h1
      simp only [Bool.false_eq_true, if_false, Prod.mk.injEq, Except.ok.injEq] at h1
      obtain ⟨hi1, hst1, hev1⟩ := h1
      rw [← hst1] at h2
      simp only [List.lookup, beq_self_eq_true, Prod.mk.injEq, Except.ok.injEq] at h2
      obtain ⟨hi2, _, hev2⟩ := h2
      subst hi1 hi2 hev1 hev2
      simp
    · rw [hf] at h1
      simp at h1
  · rw [hl] at h1
    simp only [Prod.mk.injEq, Except.ok.injEq] at h1
    obtain ⟨hi1, hst1, hev1⟩ := h1
    rw [← hst1, hl] at h2
    simp only [Prod.mk.injEq, Except.ok.injEq] at h2
    obtain ⟨hi2, _, hev2⟩ := h2
    subst hi1 hi2 hev1 hev2
    simp

/-- Witness for `c2_upsert_cache`: resolving `alice` twice on a fresh
client — the first call posts once, the second is a cache hit. -/
theorem c2_upsert_cache_witness :
    "cid1" = "cid1" ∧
    ([NetEvent.upsertCreator "alice"].length + ([] : List NetEvent).length ≤ 1) :=
  c2_upsert_cache wBase stEmpty "alice" "Alice" "Alice" "cid1" "cid1"
    ⟨[("alice", "cid1")]⟩ ⟨[("alice", "cid1")]⟩ [NetEvent.upsertCreator "alice"] []
    rfl rfl

/-! ## C3 -/

/-- Claim C3, counterexample: the list `[aliceNew, badRef]` — a valid new
creator followed by an entry with neither `id` nor `username` — does fail
with a `ValueError`, but only after the upsert call for `alice` went out:
`ensure_creators` validates each entry inside the loop, not up front, so
"no network call is made for that list" is false. -/
theorem c3_counterexample :
    exIsValidation (ensure_creators wBase stEmpty [aliceNew, badRef]).1 = true ∧
    (ensure_creators wBase stEmpty [aliceNew, badRef]).2.2 = [NetEvent.upsertCreator "alice"] :=
  ⟨rfl, rfl⟩

/-- Claim C3, amended: when an entry with neither `id` nor `username` is
reached (every entry before it having resolved successfully), resolution
fails with a `ValueError` and no network call is made for that entry or any
later entry — the calls on the wire are exactly those the preceding entries
already made. -/
theorem c3_fail_fast_per_entry (w : World) (st st1 : ClientState)
    (pre post : List CreatorDict) (c : CreatorDict)
    (rs : List ResolvedCreator) (ev : List NetEvent)
    (hid : c.id? = none) (hu : c.username? = none)
    (hpre : ensure_creators w st pre = (.ok rs, st1, ev)) :
    ensure_creators w st (pre ++ c :: post) =
      (.error (.validation "Creator must have username or id"), st1, ev) := by
  induction pre generalizing st rs ev with
  | nil =>
    rw [ensure_creators] at hpre
    simp only [Prod.mk.injEq, Except.ok.injEq] at hpre
    obtain ⟨_, hst, hev⟩ := hpre
    subst hst hev
    rw [List.nil_append, ensure_creators]
    have hro : resolveOne w st c =
        (.error (.validation "Creator must have username or id"), st, []) := by
      unfold resolveOne
      rw [hid, hu]
    rw [hro]
  | cons d pre' ih =>
    rw [ensure_creators] at hpre
    rcases hr : resolveOne w st d with ⟨r, st', ev1⟩
    rw [hr] at hpre
    cases r with
    | error e' => simp at hpre
    | ok rc =>
      dsimp only at hpre
      rcases hrest : ensure_creators w st' pre' with ⟨r2, st'', ev2⟩
      rw [hrest] at hpre
      cases r2 with
      | error e' => simp at hpre
      | ok rs' =>
        simp only [Prod.mk.injEq, Except.ok.injEq] at hpre
        obtain ⟨_, hst, hev⟩ := hpre
        subst hst
        rw [List.cons_append, ensure_creators, hr]
        dsimp only
        rw [ih st' rs' ev2 hrest]
        rw [← hev]

/-- Witness for `c3_fail_fast_per_entry`, at the concrete list of
`c3_counterexample`. -/
theorem c3_fail_fast_per_entry_witness :
    ensure_creators wBase stEmpty ([aliceNew] ++ badRef :: []) =
      (.error (.validation "Creator must have username or id"),
        ⟨[("alice", "cid1")]⟩, [NetEvent.upsertCreator "alice"]) :=
  c3_fail_fast_per_entry wBase stEmpty ⟨[("alice", "cid1")]⟩ [aliceNew] [] badRef
    [⟨"cid1", "performer"⟩] [NetEvent.upsertCreator "alice"] rfl rfl rfl

/-! ## C6 -/

theorem resolveOne_ok_spec (w : World) (st : ClientState) (c : CreatorDict)
    (rc : ResolvedCreator) (st1 : ClientState) (ev1 : List NetEvent)
    (h : resolveOne w st c = (.ok rc, st1, ev1)) :
    rc.role = c.role?.getD "performer" ∧
    (∀ cid, c.id? = some cid → c.username? = none →
      rc.id = cid ∧ st1 = st ∧ ev1 = []) := by
  unfold resolveOne at h
  rcases hid : c.id? with _ | cid0 <;> rcases hu : c.username? with _ | u <;>
      rw [hid, hu] at h <;> dsimp only at h
  · simp at h
  · constructor
    · by_cases hne : u = ""
      · rw [if_pos hne] at h
        simp at h
      · rw [if_neg hne] at h
        rcases hup : upsert_creator w st u
            ((pyOr (pyOr c.display_name? c.displayName?) (some u)).getD u) with ⟨r, st', ev⟩
        rw [hup] at h
        dsimp only at h
        cases r with
        | error e => simp [Except.map] at h
        | ok i =>
          simp only [Except.map, Prod.mk.injEq, Except.ok.injEq] at h
          rw [← h.1]
    · intro cid hcid
      simp at hcid
  · simp only [Prod.mk.injEq, Except.ok.injEq] at h
    obtain ⟨hrc, hst, hev⟩ := h
    subst hst hev
    refine ⟨by rw [← hrc], ?_⟩
    intro cid hcid _
    simp only [Option.some.injEq] at hcid
    subst hcid
    rw [← hrc]
    exact ⟨rfl, rfl, rfl⟩
  · constructor
    · by_cases hne : u = ""
      · rw [if_pos hne] at h
        simp at h
      · rw [if_neg hne] at h
        rcases hup : upsert_creator w st u
            ((pyOr (pyOr c.display_name? c.displayName?) (some u)).getD u) with ⟨r, st', ev⟩
        rw [hup] at h
        dsimp only at h
        cases r with
        | error e => simp [Except.map] at h
        | ok i =>
          simp only [Except.map, Prod.mk.injEq, Except.ok.injEq] at h
          rw [← h.1]
    · intro cid _ hun
      simp at hun

theorem ensure_creators_ok_spec (w : World) :
    ∀ (cs : List CreatorDict) (st st' : ClientState) (rs : List ResolvedCreator)
      (ev : List NetEvent),
      ensure_creators w st cs = (.ok rs, st', ev) →
      rs.length = cs.length ∧
      (∀ i c r, cs.get? i = some c → rs.get? i = some r →
          r.role = c.role?.getD "performer" ∧
          (∀ cid, c.id? = some cid → c.username? = none → r.id = cid)) := by
  intro cs
  induction cs with
  | nil =>
    intro st st' rs ev h
    rw [ensure_creators] at h
    simp only [Prod.mk.injEq, Except.ok.injEq] at h
    obtain ⟨hrs, _, _⟩ := h
    subst hrs
    exact ⟨rfl, by intro i c r hc _; simp at hc⟩
  | cons c rest ih =>
    intro st st' rs ev h
    rw [ensure_creators] at h
    rcases hr : resolveOne w st c with ⟨r1, st1, ev1⟩
    rw [hr] at h
    cases r1 with
    | error e => simp at h
    | ok rc =>
      dsimp only at h
      rcases hrest : ensure_creators w st1 rest with ⟨r2, st2, ev2⟩
      rw [hrest] at h
      cases r2 with
      | error e => simp at h
      | ok rcs =>
        simp only [Prod.mk.injEq, Except.ok.injEq] at h
        obtain ⟨hrs, _, _⟩ := h
        subst hrs
        obtain ⟨hlen, hpos⟩ := ih st1 st2 rcs ev2 hrest
        refine ⟨by simp [hlen], ?_⟩
        intro i c' r' hc' hr'
        cases i with
        | zero =>
          simp only [List.get?] at hc' hr'
          obtain rfl : c = c' := by injection hc'
          obtain rfl : rc = r' := by injection hr'
          obtain ⟨hrole, hpass⟩ := resolveOne_ok_spec w st c rc st1 ev1 hr
          exact ⟨hrole, fun cid hcid hun => (hpass cid hcid hun).1⟩
        | succ n =>
          simp only [List.get?] at hc' hr'
          exact hpos n c' r' hc' hr'

/-- Claim C6: when `ensure_creators` succeeds it returns one normalized
creator per input reference, in input order (position `i` of the output
corresponds to position `i` of the input, carrying that entry's role, with
a missing role defaulting to `performer`); an entry in simple format (an
`id` and no `username`) has its id passed through unchanged; and every
network call in the trace is an upsert for the username of some
full-format entry — none is made for a simple-format entry. -/
theorem c6_resolver_contract (w : World) (st st' : ClientState) (cs : List CreatorDict)
    (rs : List ResolvedCreator) (ev : List NetEvent)
    (h : ensure_creators w st cs = (.ok rs, st', ev)) :
    rs.length = cs.length ∧
    (∀ i c r, cs.get? i = some c → rs.get? i = some r →
        r.role = c.role?.getD "performer" ∧
        (∀ cid, c.id? = some cid → c.username? = none → r.id = cid)) ∧
    (∀ e ∈ ev, ∃ c ∈ cs, ∃ u, c.username? = some u ∧ e = NetEvent.upsertCreator u) := by
  obtain ⟨hlen, hpos⟩ := ensure_creators_ok_spec w cs st st' rs ev h
  refine ⟨hlen, hpos, ?_⟩
  intro e he
  have := ensure_creators_events w cs st e
  rw [h] at this
  exact this he

/-- An existing-creator reference in simple format. -/
def exC : CreatorDict := { id? := some "cid9", role? := some "producer" }

/-- Witness for `c6_resolver_contract`: resolving `[exC, aliceNew]`
produces exactly two entries, in order. -/
theorem c6_resolver_contract_witness :
    ([⟨"cid9", "producer"⟩, ⟨"cid1", "performer"⟩] : List ResolvedCreator).length =
      ([exC, aliceNew] : List CreatorDict).length :=
  (c6_resolver_contract wBase stEmpty ⟨[("alice", "cid1")]⟩ [exC, aliceNew]
    [⟨"cid9", "producer"⟩, ⟨"cid1", "performer"⟩] [NetEvent.upsertCreator "alice"] rfl).1

/-! ## C8 -/

/-- A simple-format reference with a role outside performer/producer. -/
def roleBad : CreatorDict := { id? := some "c1", role? := some "director" }

/-- A simple-format reference with no role key at all. -/
def roleMissing : CreatorDict := { id? := some "c2" }

/-- Claim C8, counterexample: `ensure_creators` accepts a reference whose
role is `director` (not in performer/producer) and one with no role at all
— no `ValueError` is raised; the invalid role is passed through and the
missing role silently defaults to `performer`. -/
theorem c8_counterexample :
    ensure_creators wBase stEmpty [roleBad] = (.ok [⟨"c1", "director"⟩], stEmpty, []) ∧
    ensure_creators wBase stEmpty [roleMissing] = (.ok [⟨"c2", "performer"⟩], stEmpty, []) :=
  ⟨rfl, rfl⟩

/-- Claim C8, amended: `ensure_creators` itself performs no role
validation — a missing role defaults to `performer` and any role value is
passed through unchanged, with no error; the check that
`role ∈ {performer, producer}` (and that a role is present at all) is
enforced only by the CLI driver's pre-upload validation loop
(`validate_creators`), which involves no network call. -/
theorem c8_role_unvalidated (w : World) (st : ClientState) (c : CreatorDict) (cid : String)
    (hid : c.id? = some cid) (hu : c.username? = none) :
    ensure_creators w st [c] = (.ok [⟨cid, c.role?.getD "performer"⟩], st, []) ∧
    (c.role? = none → exIsValidation (validate_creators [c]) = true) ∧
    (∀ r, c.role? = some r → r ≠ "performer" → r ≠ "producer" →
        exIsValidation (validate_creators [c]) = true) := by
  refine ⟨?_, ?_, ?_⟩
  · have hro : resolveOne w st c = (.ok ⟨cid, c.role?.getD "performer"⟩, st, []) := by
      unfold resolveOne
      rw [hid, hu]
    rw [ensure_creators, hro]
    rfl
  · intro h0
    simp [validate_creators, h0, exIsValidation]
  · intro r hr h1 h2
    simp [validate_creators, hr, h1, h2, exIsValidation]

/-- Witness for `c8_role_unvalidated`, at the `director`-role reference. -/
theorem c8_role_unvalidated_witness :
    ensure_creators wBase stEmpty [roleBad] = (.ok [⟨"c1", "director"⟩], stEmpty, []) :=
  (c8_role_unvalidated wBase stEmpty roleBad "c1" rfl rfl).1

/-! ## C9 -/

/-- Claim C9: `_get_content_type` is a pure, total function of the path
(totality is by construction in this embedding); a path whose lower-cased
suffix is one of the ten table extensions maps to that table's MIME type,
and every other suffix — including no suffix at all — maps to
`application/octet-stream`. -/
theorem c9_content_type_total :
    (∀ p : String,
      strLower (pySuffix p) ∉
        [".mp4", ".mov", ".avi", ".webm", ".mkv", ".jpg", ".jpeg", ".png", ".gif", ".webp"] →
      get_content_type p = "application/octet-stream") ∧
    (∀ p : String, strLower (pySuffix p) = ".mp4" → get_content_type p = "video/mp4") ∧
    (∀ p : String, strLower (pySuffix p) = ".mov" → get_content_type p = "video/quicktime") ∧
    (∀ p : String, strLower (pySuffix p) = ".avi" → get_content_type p = "video/x-msvideo") ∧
    (∀ p : String, strLower (pySuffix p) = ".webm" → get_content_type p = "video/webm") ∧
    (∀ p : String, strLower (pySuffix p) = ".mkv" → get_content_type p = "video/x-matroska") ∧
    (∀ p : String, strLower (pySuffix p) = ".jpg" → get_content_type p = "image/jpeg") ∧
    (∀ p : String, strLower (pySuffix p) = ".jpeg" → get_content_type p = "image/jpeg") ∧
    (∀ p : String, strLower (pySuffix p) = ".png" → get_content_type p = "image/png") ∧
    (∀ p : String, strLower (pySuffix p) = ".gif" → get_content_type p = "image/gif") ∧
    (∀ p : String, strLower (pySuffix p) = ".webp" → get_content_type p = "image/webp") := by
  refine ⟨?_, ?_, ?_, ?_, ?_, ?_, ?_, ?_, ?_, ?_, ?_⟩ <;> intro p h
  · simp only [List.mem_cons, List.not_mem_nil, or_false, not_or] at h
    obtain ⟨h1, h2, h3, h4, h5, h6, h7, h8, h9, h10⟩ := h
    have e1 := beq_eq_false_iff_ne.mpr h1
    have e2 := beq_eq_false_iff_ne.mpr h2
    have e3 := beq_eq_false_iff_ne.mpr h3
    have e4 := beq_eq_false_iff_ne.mpr h4
    have e5 := beq_eq_false_iff_ne.mpr h5
    have e6 := beq_eq_false_iff_ne.mpr h6
    have e7 := beq_eq_false_iff_ne.mpr h7
    have e8 := beq_eq_false_iff_ne.mpr h8
    have e9 := beq_eq_false_iff_ne.mpr h9
    have e10 := beq_eq_false_iff_ne.mpr h10
    unfold get_content_type content_types
    simp only [List.lookup, e1, e2, e3, e4, e5, e6, e7, e8, e9, e10]
    rfl
  all_goals
    unfold get_content_type content_types
    rw [h]
    rfl

/-- Witness for `c9_content_type_total`: an upper-case recognized
extension and an unrecognized one. -/
theorem c9_content_type_total_witness :
    get_content_type "notes.txt" = "application/octet-stream" ∧
    get_content_type "clips/movie.MP4" = "video/mp4" :=
  ⟨c9_content_type_total.1 "notes.txt" (by decide),
   c9_content_type_total.2.1 "clips/movie.MP4" (by decide)⟩

/-! ## C10 -/

/-- Claim C10: a reference dict carrying both an `id` and a (non-empty)
`username` is treated as a full-format (new-creator) reference: the result
of resolving it is literally the same as resolving the dict with its `id`
removed (the supplied id cannot influence the outcome); on a cache miss
the one network call made is the upsert keyed by the username; and a
successful resolution returns the cached or server-assigned id for that
username, never the supplied one. -/
theorem c10_both_fields_upsert (w : World) (st : ClientState) (c : CreatorDict)
    (cid u : String) (hid : c.id? = some cid) (hu : c.username? = some u) (hne : u ≠ "") :
    ensure_creators w st [c] = ensure_creators w st [{ c with id? := none }] ∧
    (List.lookup u st.cache = none →
        (ensure_creators w st [c]).2.2 = [NetEvent.upsertCreator u]) ∧
    (∀ rs st' ev, ensure_creators w st [c] = (.ok rs, st', ev) →
        rs = [⟨(List.lookup u st.cache).getD (w.creatorId u), c.role?.getD "performer"⟩]) := by
  have hro : resolveOne w st c = resolveOne w st { c with id? := none } := by
    unfold resolveOne
    simp only [hid, hu]
  have hform : ∀ st0, ensure_creators w st0 [c] =
      (match resolveOne w st0 c with
        | (.error e, st', ev) => (.error e, st', ev)
        | (.ok rc, st', ev) => (.ok [rc], st', ev ++ [])) := by
    intro st0
    rw [ensure_creators]
    rcases hr : resolveOne w st0 c with ⟨r, st', ev⟩
    cases r <;> rfl
  refine ⟨?_, ?_, ?_⟩
  · rw [ensure_creators, ensure_creators, hro]
  · intro hl
    rw [hform st]
    unfold resolveOne
    simp only [hid, hu]
    rw [if_neg hne]
    unfold upsert_creator
    rw [hl]
    by_cases hf : w.upsertFails u
    · rw [if_pos hf]
      rfl
    · rw [if_neg hf]
      rfl
  · intro rs st' ev h
    rw [hform st] at h
    revert h
    unfold resolveOne
    simp only [hid, hu]
    rw [if_neg hne]
    unfold upsert_creator
    rcases hl : List.lookup u st.cache with _ | cid'
    · by_cases hf : w.upsertFails u
      · rw [if_pos hf]
        intro h
        exact absurd h (by simp [Except.map])
      · rw [if_neg hf]
        intro h
        simp only [Except.map, Prod.mk.injEq, Except.ok.injEq] at h
        simp [← h.1]
    · intro h
      simp only [Except.map, Prod.mk.injEq, Except.ok.injEq] at h
      simp [← h.1]

/-- A reference carrying both an `id` and a `username`. -/
def bothRef : CreatorDict :=
  { id? := some "zzz", username? := some "alice",
    display_name? := some "Alice", role? := some "performer" }

/-- Witness for `c10_both_fields_upsert`: on a fresh cache, resolving
`bothRef` makes exactly the upsert call for `alice`. -/
theorem c10_both_fields_upsert_witness :
    (ensure_creators wBase stEmpty [bothRef]).2.2 = [NetEvent.upsertCreator "alice"] :=
  (c10_both_fields_upsert wBase stEmpty bothRef "zzz" "alice" rfl rfl
    (by decide)).2.1 rfl

/-! ## C4 -/

/-- Claim C4: whenever the materialized video asset is smaller than the
1024-byte minimum, `upload_video` fails with a `ValueError` and no
video-creation (`POST /api/v1/upload`) request appears in the trace. -/
theorem c4_min_size (w : World) (st : ClientState) (fs : FS) (req : UploadRequest) (n : Nat)
    (hn : materializedVideoSize w fs req = some n) (hlt : n < 1024) :
    exIsValidation (upload_video w st fs req).result = true ∧
    NetEvent.createVideo ∉ (upload_video w st fs req).events := by
  rw [upload_video_result, upload_video_events]
  unfold materializedVideoSize at hn
  unfold upload_body
  rcases hm : materializeSource w fs req.videoPath with ⟨r, fs1, ev1⟩
  rw [hm] at hn
  have hev1 : ∀ e ∈ ev1, e = NetEvent.getUrl req.videoPath := by
    have := materializeSource_events w fs req.videoPath
    rw [hm] at this
    exact this
  cases r with
  | error e => simp at hn
  | ok pv =>
    rcases pv with ⟨p, tv⟩
    dsimp only at hn ⊢
    have hsize : w.size p = n := by
      simpa using hn
    rw [if_pos (show w.size p < 1024 from hsize ▸ hlt)]
    refine ⟨rfl, ?_⟩
    intro hmem
    have := hev1 _ hmem
    simp at this

/-- The small-video environment: a 500-byte local file. -/
def wSmall : World := { wBase with isUrl := fun _ => false, size := fun _ => 500 }

/-- A filesystem holding the local video and thumbnail of the scenarios. -/
def fsLocal : FS := fun p => p == "v.mp4" || p == "t.jpg"

/-- A request for the local 500-byte video. -/
def reqSmall : UploadRequest := { videoPath := "v.mp4" }

/-- Witness for `c4_min_size`: the 500-byte local video is rejected before
any platform request. -/
theorem c4_min_size_witness :
    exIsValidation (upload_video wSmall stEmpty fsLocal reqSmall).result = true ∧
    NetEvent.createVideo ∉ (upload_video wSmall stEmpty fsLocal reqSmall).events :=
  c4_min_size wSmall stEmpty fsLocal reqSmall 500 (by decide) (by decide)

/-! ## C5 -/

theorem afterThumb_creators_fail (w : World) (st : ClientState) (fs : FS)
    (req : UploadRequest) (ev : List NetEvent) (a ct : String) (tv th tt ctt : Option String)
    (cs : List CreatorDict)
    (hcs : req.creators = some cs)
    (hfail : exIsOk (ensure_creators w st cs).1 = false)
    (hev : NetEvent.createVideo ∉ ev) :
    exIsOk (afterThumb w st fs req ev a ct tv th tt ctt).result = false ∧
    NetEvent.createVideo ∉ (afterThumb w st fs req ev a ct tv th tt ctt).events := by
  unfold afterThumb
  rw [hcs]
  cases cs with
  | nil => simp [ensure_creators, exIsOk] at hfail
  | cons c rest =>
    dsimp only
    rw [if_neg (by simp)]
    rcases he : ensure_creators w st (c :: rest) with ⟨r, st1, evc⟩
    rw [he] at hfail
    cases r with
    | ok rs => simp [exIsOk] at hfail
    | error e =>
      dsimp only
      refine ⟨rfl, ?_⟩
      intro hmem
      rcases List.mem_append.mp hmem with h1 | h2
      · exact hev h1
      · have := ensure_creators_events w (c :: rest) st NetEvent.createVideo
        rw [he] at this
        rcases this h2 with ⟨c', _, u, _, hne⟩
        simp at hne

/-- Claim C5: when the request carries creator references and their
resolution fails (for any reason — validation or upstream), `upload_video`
fails and no video-creation request is ever issued: the session request
happens only after all creators resolved. -/
theorem c5_no_session_on_creator_failure (w : World) (st : ClientState) (fs : FS)
    (req : UploadRequest) (cs : List CreatorDict)
    (hcs : req.creators = some cs)
    (hfail : exIsOk (ensure_creators w st cs).1 = false) :
    exIsOk (upload_video w st fs req).result = false ∧
    NetEvent.createVideo ∉ (upload_video w st fs req).events := by
  rw [upload_video_result, upload_video_events]
  unfold upload_body
  rcases hm : materializeSource w fs req.videoPath with ⟨r, fs1, ev1⟩
  have hms := materializeSource_events w fs req.videoPath
  rw [hm] at hms
  have hev1 : NetEvent.createVideo ∉ ev1 := by
    intro hmem
    have := hms _ hmem
    simp at this
  cases r with
  | error e => exact ⟨rfl, hev1⟩
  | ok pv =>
    rcases pv with ⟨p, tv⟩
    dsimp only
    by_cases hsz : w.size p < 1024
    · rw [if_pos hsz]
      exact ⟨rfl, hev1⟩
    · rw [if_neg hsz]
      rcases htp : req.thumbnailPath with _ | tp
      · exact afterThumb_creators_fail w st fs1 req ev1 p (get_content_type p) tv
          none none none cs hcs hfail hev1
      · dsimp only
        by_cases htpe : tp = ""
        · rw [if_pos htpe]
          exact afterThumb_creators_fail w st fs1 req ev1 p (get_content_type p) tv
            none none none cs hcs hfail hev1
        · rw [if_neg htpe]
          rcases hm2 : materializeSource w fs1 tp with ⟨r2, fs2, ev2⟩
          have hms2 := materializeSource_events w fs1 tp
          rw [hm2] at hms2
          have hev2 : NetEvent.createVideo ∉ ev2 := by
            intro hmem
            have := hms2 _ hmem
            simp at this
          cases r2 with
          | error e =>
            dsimp only
            refine ⟨rfl, ?_⟩
            intro hmem
            rcases List.mem_append.mp hmem with h1 | h2
            · exact hev1 h1
            · exact hev2 h2
          | ok pv2 =>
            rcases pv2 with ⟨pt, tt⟩
            dsimp only
            refine afterThumb_creators_fail w st fs2 req (ev1 ++ ev2) p (get_content_type p) tv
              (some pt) tt (some (get_content_type pt)) cs hcs hfail ?_
            intro hmem
            rcases List.mem_append.mp hmem with h1 | h2
            · exact hev1 h1
            · exact hev2 h2

/-- The environment where every creator upsert is refused. -/
def wUpsertFail : World :=
  { wBase with isUrl := fun _ => false, upsertFails := fun _ => true }

/-- A new-creator reference for `bob`. -/
def bobNew : CreatorDict := { username? := some "bob", role? := some "performer" }

/-- A request with the local video and one new creator. -/
def reqCreator : UploadRequest := { videoPath := "v.mp4", creators := some [bobNew] }

/-- Witness for `c5_no_session_on_creator_failure`: the upsert for `bob`
is refused, the upload fails, and no video-creation request was made. -/
theorem c5_no_session_on_creator_failure_witness :
    exIsOk (upload_video wUpsertFail stEmpty fsLocal reqCreator).result = false ∧
    NetEvent.createVideo ∉ (upload_video wUpsertFail stEmpty fsLocal reqCreator).events :=
  c5_no_session_on_creator_failure wUpsertFail stEmpty fsLocal reqCreator [bobNew]
    rfl (by decide)

/-! ## C7 -/

theorem afterCreators_put_fail (w : World) (st : ClientState) (fs : FS) (ev : List NetEvent)
    (a ct : String) (tv th tt ctt : Option String) (u cty : String)
    (hev : ∀ c', NetEvent.putS3 u c' ∉ ev)
    (hf : w.putFails u = true)
    (hmem : NetEvent.putS3 u cty ∈ (afterCreators w st fs ev a ct tv th tt ctt).events) :
    exIsOk (afterCreators w st fs ev a ct tv th tt ctt).result = false := by
  unfold afterCreators create_video upload_file_to_s3 at hmem ⊢
  by_cases hcv : w.createVideoFails
  · rw [if_pos hcv]
    rfl
  · rw [if_neg hcv] at hmem ⊢
    dsimp only at hmem ⊢
    by_cases hpv : w.putFails w.resp.uploadUrl
    · rw [if_pos hpv]
      rfl
    · rw [if_neg hpv] at hmem ⊢
      dsimp only at hmem ⊢
      by_cases hth : truthy th = true ∧ truthy w.resp.thumbnailUploadUrl = true
      · rw [if_pos hth] at hmem ⊢
        by_cases hpt : w.putFails (w.resp.thumbnailUploadUrl.getD "")
        · rw [if_pos hpt]
          rfl
        · rw [if_neg hpt] at hmem ⊢
          dsimp only at hmem ⊢
          exfalso
          simp only [List.mem_append, List.mem_singleton] at hmem
          rcases hmem with ((hin | hcvd) | hvp) | htp
          · exact hev cty hin
          · simp at hcvd
          · obtain ⟨h1, _⟩ : u = w.resp.uploadUrl ∧ cty = ct := by
              simpa using hvp
            exact hpv (h1 ▸ hf)
          · obtain ⟨h1, _⟩ : u = w.resp.thumbnailUploadUrl.getD "" ∧
                cty = pyOrStr ctt "image/jpeg" := by
              simpa using htp
            exact hpt (h1 ▸ hf)
      · rw [if_neg hth] at hmem ⊢
        dsimp only at hmem ⊢
        exfalso
        simp only [List.mem_append, List.mem_singleton] at hmem
        rcases hmem with (hin | hcvd) | hvp
        · exact hev cty hin
        · simp at hcvd
        · obtain ⟨h1, _⟩ : u = w.resp.uploadUrl ∧ cty = ct := by
            simpa using hvp
          exact hpv (h1 ▸ hf)

theorem afterThumb_put_fail (w : World) (st : ClientState) (fs : FS)
    (req : UploadRequest) (ev : List NetEvent) (a ct : String) (tv th tt ctt : Option String)
    (u cty : String)
    (hev : ∀ c', NetEvent.putS3 u c' ∉ ev)
    (hf : w.putFails u = true)
    (hmem : NetEvent.putS3 u cty ∈ (afterThumb w st fs req ev a ct tv th tt ctt).events) :
    exIsOk (afterThumb w st fs req ev a ct tv th tt ctt).result = false := by
  unfold afterThumb at hmem ⊢
  rcases hcs : req.creators with _ | cs
  · rw [hcs] at hmem
    dsimp only at hmem ⊢
    exact afterCreators_put_fail w st fs ev a ct tv th tt ctt u cty hev hf hmem
  · rw [hcs] at hmem
    dsimp only at hmem ⊢
    by_cases hemp : cs.isEmpty
    · rw [if_pos hemp] at hmem ⊢
      exact afterCreators_put_fail w st fs ev a ct tv th tt ctt u cty hev hf hmem
    · rw [if_neg hemp] at hmem ⊢
      rcases he : ensure_creators w st cs with ⟨r, st1, evc⟩
      rw [he] at hmem
      have hee := ensure_creators_events w cs st
      rw [he] at hee
      have hevc : ∀ c', NetEvent.putS3 u c' ∉ evc := by
        intro c' hx
        rcases hee _ hx with ⟨c0, _, u0, _, heq⟩
        simp at heq
      cases r with
      | error e => rfl
      | ok rs =>
        dsimp only at hmem ⊢
        refine afterCreators_put_fail w st1 fs (ev ++ evc) a ct tv th tt ctt u cty ?_ hf hmem
        intro c' hx
        rcases List.mem_append.mp hx with h1 | h2
        · exact hev c' h1
        · exact hevc c' h2

/-- Claim C7: any attempted raw-bytes transfer that fails makes the whole
`upload_video` call raise.  In particular — the instance the claim and
witness exercise — when the video bytes were already transferred and the
video record already created, a failing thumbnail transfer still reports
the overall operation as failed. -/
theorem c7_thumbnail_failure_raises (w : World) (st : ClientState) (fs : FS)
    (req : UploadRequest) (u cty : String)
    (hmem : NetEvent.putS3 u cty ∈ (upload_video w st fs req).events)
    (hf : w.putFails u = true) :
    exIsOk (upload_video w st fs req).result = false := by
  rw [upload_video_events] at hmem
  rw [upload_video_result]
  unfold upload_body at hmem ⊢
  rcases hm : materializeSource w fs req.videoPath with ⟨r, fs1, ev1⟩
  rw [hm] at hmem
  have hms := materializeSource_events w fs req.videoPath
  rw [hm] at hms
  have hev1 : ∀ c', NetEvent.putS3 u c' ∉ ev1 := by
    intro c' hx
    have := hms _ hx
    simp at this
  cases r with
  | error e => rfl
  | ok pv =>
    rcases pv with ⟨p, tv⟩
    dsimp only at hmem ⊢
    by_cases hsz : w.size p < 1024
    · rw [if_pos hsz]
      rfl
    · rw [if_neg hsz] at hmem ⊢
      rcases htp : req.thumbnailPath with _ | tp
      · rw [htp] at hmem
        dsimp only at hmem ⊢
        exact afterThumb_put_fail w st fs1 req ev1 p (get_content_type p) tv
          none none none u cty hev1 hf hmem
      · rw [htp] at hmem
        dsimp only at hmem ⊢
        by_cases htpe : tp = ""
        · rw [if_pos htpe] at hmem ⊢
          exact afterThumb_put_fail w st fs1 req ev1 p (get_content_type p) tv
            none none none u cty hev1 hf hmem
        · rw [if_neg htpe] at hmem ⊢
          rcases hm2 : materializeSource w fs1 tp with ⟨r2, fs2, ev2⟩
          rw [hm2] at hmem
          have hms2 := materializeSource_events w fs1 tp
          rw [hm2] at hms2
          cases r2 with
          | error e => rfl
          | ok pv2 =>
            rcases pv2 with ⟨pt, tt⟩
            dsimp only at hmem ⊢
            refine afterThumb_put_fail w st fs2 req (ev1 ++ ev2) p (get_content_type p) tv
              (some pt) tt (some (get_content_type pt)) u cty ?_ hf hmem
            intro c' hx
            rcases List.mem_append.mp hx with h1 | h2
            · exact hev1 c' h1
            · have := hms2 _ h2
              simp at this

/-- The environment where only the thumbnail transfer is refused. -/
def wThumbFail : World :=
  { wBase with isUrl := fun _ => false, putFails := fun s => s == "putT" }

/-- A request with a local video and a local thumbnail. -/
def reqThumb : UploadRequest := { videoPath := "v.mp4", thumbnailPath := some "t.jpg" }

/-- Witness for `c7_thumbnail_failure_raises`: the video record was
created and the video bytes transferred, yet the failing thumbnail
transfer makes the whole call report failure. -/
theorem c7_thumbnail_failure_raises_witness :
    NetEvent.createVideo ∈ (upload_video wThumbFail stEmpty fsLocal reqThumb).events ∧
    NetEvent.putS3 "putV" "video/mp4" ∈ (upload_video wThumbFail stEmpty fsLocal reqThumb).events ∧
    exIsOk (upload_video wThumbFail stEmpty fsLocal reqThumb).result = false :=
  ⟨by decide, by decide,
   c7_thumbnail_failure_raises wThumbFail stEmpty fsLocal reqThumb "putT" "image/jpeg"
     (by decide) rfl⟩
